import Mathlib

/-!
# Verification of the CSG engine of `@chitrashensah/geant4-geometry`

Shallow embedding of `src/utils/CSG.js` (classes `CSG`, `Vector`, `Vertex`,
`Plane`, `Polygon`, `Node`).  JS numbers are modelled by exact rationals `ℚ`;
`Math.sqrt` is modelled by `ratSqrt`, which returns the exact square root when
the argument is a square of a rational and `0` otherwise (the only square
roots that matter for the claims are exact ones, or the degenerate
`sqrt 0 = 0` case).  Division by zero, which yields `NaN`/`Infinity` in JS,
yields `0` in `ℚ`; no claim depends on the particular junk value, only on the
fact that no error is signalled.  Out-of-range array reads (`undefined` in JS,
propagating to `NaN` coordinates) are modelled by `List.getD` with default
`0`; again no claim depends on the junk values produced this way.

JS mutation is rendered by value threading: each mutating method becomes a
function from the old value to the new value, and the sequencing of the JS
statements becomes sequential `let`-rebinding.  `Plane.splitPolygon`, which
pushes into four caller-supplied arrays (which may alias each other at call
sites), instead returns the four lists of pushed polygons; at every call site
of the source at most one of the aliased outputs receives a push per call, so
appending the returned deltas in order reproduces the array contents exactly.
-/

attribute [local semireducible] Rat.add Rat.mul Rat.inv Rat.sub

set_option maxRecDepth 4000

namespace CSGJS

/-- Largest natural `r` with `r * r ≤ n` (linear scan; kernel-friendly). -/
def natSqrt (n : ℕ) : ℕ :=
  (List.range (n + 1)).foldl (fun acc r => if r * r ≤ n then r else acc) 0

/-- Model of JS `Math.sqrt` on exact rationals: the exact square root when `q`
is the square of a rational, `0` otherwise (an irrational square root has no
exact rational image; no claim depends on its value). -/
def ratSqrt (q : ℚ) : ℚ :=
  if q < 0 then 0
  else
    let n := natSqrt q.num.toNat
    let d := natSqrt q.den
    if (n * n : ℤ) = q.num ∧ d * d = q.den then (n : ℚ) / (d : ℚ) else 0

/-- `class Vector` (CSG.js 276-357): a 3-component number triple. -/
structure Vec3 where
  x : ℚ
  y : ℚ
  z : ℚ
deriving DecidableEq

/-- `Vector.prototype.add` (302-306). -/
def Vec3.add (a b : Vec3) : Vec3 := ⟨a.x + b.x, a.y + b.y, a.z + b.z⟩

/-- `Vector.prototype.sub` (308-313). -/
def Vec3.sub (a b : Vec3) : Vec3 := ⟨a.x - b.x, a.y - b.y, a.z - b.z⟩

/-- `Vector.prototype.negate` (294-299). -/
def Vec3.neg (a : Vec3) : Vec3 := ⟨-a.x, -a.y, -a.z⟩

/-- `Vector.prototype.times` (315-320). -/
def Vec3.times (a : Vec3) (t : ℚ) : Vec3 := ⟨a.x * t, a.y * t, a.z * t⟩

/-- `Vector.prototype.dividedBy` (322-327). -/
def Vec3.dividedBy (a : Vec3) (t : ℚ) : Vec3 := ⟨a.x / t, a.y / t, a.z / t⟩

/-- `Vector.prototype.dot` (354-356). -/
def Vec3.dot (a b : Vec3) : ℚ := a.x * b.x + a.y * b.y + a.z * b.z

/-- `Vector.prototype.cross` (345-352). -/
def Vec3.cross (a b : Vec3) : Vec3 :=
  ⟨a.y * b.z - a.z * b.y, a.z * b.x - a.x * b.z, a.x * b.y - a.y * b.x⟩

/-- `Vector.prototype.lerp` (329-331): `this + (a - this) * t`. -/
def Vec3.lerp (a b : Vec3) (t : ℚ) : Vec3 := a.add ((b.sub a).times t)

/-- `Vector.prototype.length` (337-339), via the `ratSqrt` model of
`Math.sqrt`. -/
def Vec3.length (a : Vec3) : ℚ := ratSqrt (a.dot a)

/-- `Vector.prototype.unit` / `normalize` (333-343). -/
def Vec3.unit (a : Vec3) : Vec3 := a.dividedBy a.length

/-- The uv attribute: the `Vertex` constructor (366) forces `uv.z = 0`, so uv
values are 2-dimensional; we model them as pairs outright. -/
structure Vec2 where
  x : ℚ
  y : ℚ
deriving DecidableEq

/-- `lerp` on uv pairs (the z component stays 0 throughout). -/
def Vec2.lerp (a b : Vec2) (t : ℚ) : Vec2 := ⟨a.x + (b.x - a.x) * t, a.y + (b.y - a.y) * t⟩

/-- `class Vertex` (362-386): position, normal, optional uv and color. -/
structure Vertex where
  pos : Vec3
  normal : Vec3
  uv : Option Vec2
  color : Option Vec3
deriving DecidableEq

instance : Inhabited Vertex := ⟨⟨⟨0, 0, 0⟩, ⟨0, 0, 0⟩, none, none⟩⟩

/-- `Vertex.prototype.clone` (370-372): `new Vertex(pos, normal, uv, color)`
copies every component, producing an equal value. -/
def Vertex.clone (v : Vertex) : Vertex := ⟨v.pos, v.normal, v.uv, v.color⟩

/-- `Vertex.prototype.flip` (374-376): negate the normal. -/
def Vertex.flip (v : Vertex) : Vertex := { v with normal := v.normal.neg }

/-- `Vertex.prototype.interpolate` (378-385): componentwise lerp; uv/color
only when both endpoints carry the attribute. -/
def Vertex.interpolate (v w : Vertex) (t : ℚ) : Vertex :=
  ⟨v.pos.lerp w.pos t, v.normal.lerp w.normal t,
   match v.uv, w.uv with
   | some a, some b => some (a.lerp b t)
   | _, _ => none,
   match v.color, w.color with
   | some a, some b => some (a.lerp b t)
   | _, _ => none⟩

/-- `class Plane` (388-455): oriented plane `normal · p = w`. -/
structure Plane where
  normal : Vec3
  w : ℚ
deriving DecidableEq

/-- `Plane.EPSILON = 1e-5` (457). -/
def EPSILON : ℚ := 1 / 100000

/-- `Plane.prototype.flip` (398-401). -/
def Plane.flip (p : Plane) : Plane := ⟨p.normal.neg, -p.w⟩

/-- `Plane.fromPoints` (459-462): `n = normalize((b-a) × (c-a))`,
`w = n · a`. -/
def Plane.fromPoints (a b c : Vec3) : Plane :=
  let n := ((b.sub a).cross (c.sub a)).unit
  ⟨n, n.dot a⟩

/-- `class Polygon` (464-482).  The `shared` tag is an opaque group key
(the `objectIndex` argument of the adapters, a number or `undefined`). -/
structure Polygon where
  vertices : List Vertex
  shared : Option ℕ
  plane : Plane
deriving DecidableEq

/-- The `Polygon` constructor (465-469): stores the vertices and tag and
derives the plane from the first three vertex positions.  The JS constructor
unconditionally reads `vertices[0..2]`; every call site in the source passes
at least 3 vertices, so the `getD` defaults are never consumed there. -/
def Polygon.make (vs : List Vertex) (sh : Option ℕ) : Polygon :=
  ⟨vs, sh, Plane.fromPoints (vs.getD 0 default).pos (vs.getD 1 default).pos
      (vs.getD 2 default).pos⟩

/-- `Polygon.prototype.clone` (471-476): clone the vertices and rebuild via
the constructor (which recomputes the plane from the vertices). -/
def Polygon.clone (p : Polygon) : Polygon :=
  Polygon.make (p.vertices.map Vertex.clone) p.shared

/-- `Polygon.prototype.flip` (478-481): reverse the vertex order, flip every
vertex normal, flip the cached plane. -/
def Polygon.flip (p : Polygon) : Polygon :=
  ⟨p.vertices.reverse.map Vertex.flip, p.shared, p.plane.flip⟩

/-- Vertex classification constants of `splitPolygon` (404-407). -/
def COPLANAR : ℕ := 0

/-- `FRONT = 1` (405). -/
def FRONT : ℕ := 1

/-- `BACK = 2` (406). -/
def BACK : ℕ := 2

/-- `SPANNING = 3 = FRONT | BACK` (407). -/
def SPANNING : ℕ := 3

/-- Per-vertex classification of `splitPolygon` (412-417):
`t = normal·pos - w`; BACK below `-EPSILON`, FRONT above `EPSILON`,
COPLANAR otherwise. -/
def Plane.vertexType (pl : Plane) (v : Vertex) : ℕ :=
  let t := pl.normal.dot v.pos - pl.w
  if t < -EPSILON then BACK else if t > EPSILON then FRONT else COPLANAR

/-- The polygon-level type of `splitPolygon` (409-417): bitwise OR of the
per-vertex types. -/
def Plane.polygonType (pl : Plane) (poly : Polygon) : ℕ :=
  (poly.vertices.map pl.vertexType).foldl (fun a t => a ||| t) 0

/-- The edge walk of the SPANNING case of `splitPolygon` (429-448): returns
the accumulated front and back vertex lists `f` and `b`. -/
def Plane.spanVerts (pl : Plane) (poly : Polygon) : List Vertex × List Vertex :=
  let types := poly.vertices.map pl.vertexType
  (List.range poly.vertices.length).foldl
    (fun fb i =>
      let j := (i + 1) % poly.vertices.length
      let ti := types.getD i 0
      let tj := types.getD j 0
      let vi := poly.vertices.getD i default
      let vj := poly.vertices.getD j default
      let f := if ti ≠ BACK then fb.1 ++ [vi] else fb.1
      let b := if ti ≠ FRONT then fb.2 ++ [if ti ≠ BACK then vi.clone else vi] else fb.2
      if (ti ||| tj) = SPANNING then
        let t := (pl.w - pl.normal.dot vi.pos) / (pl.normal.dot (vj.pos.sub vi.pos))
        let v := vi.interpolate vj t
        (f ++ [v], b ++ [v.clone])
      else (f, b))
    ([], [])

/-- Result of one `Plane.splitPolygon` call (403-454).  The JS method pushes
into four caller-supplied arrays; this structure holds, per output array, the
list of polygons pushed during the call.  At both call sites of the source
some of the four arrays alias each other, but in any single call at most one
of the coplanar outputs and at most one push per output ever happens for the
aliased pairs, so appending the deltas in field order reproduces the JS array
contents. -/
structure SplitOut where
  coplanarFront : List Polygon
  coplanarBack : List Polygon
  front : List Polygon
  back : List Polygon
deriving DecidableEq

/-- `Plane.prototype.splitPolygon` (403-454). -/
def Plane.splitPolygon (pl : Plane) (poly : Polygon) : SplitOut :=
  let pt := pl.polygonType poly
  if pt = COPLANAR then
    if pl.normal.dot poly.plane.normal > 0 then ⟨[poly], [], [], []⟩
    else ⟨[], [poly], [], []⟩
  else if pt = FRONT then ⟨[], [], [poly], []⟩
  else if pt = BACK then ⟨[], [], [], [poly]⟩
  else
    let fb := pl.spanVerts poly
    ⟨[], [],
     if fb.1.length ≥ 3 then [Polygon.make fb.1 poly.shared] else [],
     if fb.2.length ≥ 3 then [Polygon.make fb.2 poly.shared] else []⟩

/-- `class Node` (484-554).  The JS `front`/`back` fields are either a Node
object or `undefined`; `.nil` models the absent (`undefined`) child pointer.
Every actual JS node is a `.mk`; functions pattern-match children against
`.nil` exactly where the source tests `if (this.front)` / `if (this.back)`.
The `.nil` equations of the functions below are never reached from an actual
node and return the vacuous value. -/
inductive Node where
  | nil
  | mk (plane : Option Plane) (polygons : List Polygon) (front : Node) (back : Node)
deriving DecidableEq

/-- `new Node()` with no argument (485-488): no plane, no polygons, no
children. -/
def Node.leafNode : Node := Node.mk none [] Node.nil Node.nil

/-- `Node.prototype.invert` (499-509): flip all local polygons and the plane,
invert both children, swap the children. -/
def Node.invert : Node → Node
  | .nil => .nil
  | .mk pl ps f b => Node.mk (pl.map Plane.flip) (ps.map Polygon.flip) b.invert f.invert

/-- `Node.prototype.clipPolygons` (511-522): no plane means pass the input
through; otherwise split every polygon (coplanar-front with front,
coplanar-back with back), recurse into an existing front child or pass the
front list through, recurse into an existing back child or DISCARD the back
list, and concatenate front-then-back. -/
def Node.clipPolygons : Node → List Polygon → List Polygon
  | .nil, polys => polys
  | .mk none _ _ _, polys => polys
  | .mk (some pl) _ f b, polys =>
    let fb := polys.foldl
      (fun acc p =>
        let d := pl.splitPolygon p
        (acc.1 ++ d.coplanarFront ++ d.front, acc.2 ++ d.coplanarBack ++ d.back))
      ([], [])
    (match f with
     | .nil => fb.1
     | fn => fn.clipPolygons fb.1) ++
    (match b with
     | .nil => ([] : List Polygon)
     | bn => bn.clipPolygons fb.2)

/-- `Node.prototype.clipTo` (524-528): replace the local polygons by
`bsp.clipPolygons` of them, then clip both children to `bsp`. -/
def Node.clipTo : Node → Node → Node
  | .nil, _ => .nil
  | .mk pl ps f b, bsp => Node.mk pl (bsp.clipPolygons ps) (f.clipTo bsp) (b.clipTo bsp)

/-- `Node.prototype.allPolygons` (530-535): local polygons, then the front
subtree's, then the back subtree's. -/
def Node.allPolygons : Node → List Polygon
  | .nil => []
  | .mk _ ps f b => ps ++ f.allPolygons ++ b.allPolygons

/-- `Node.prototype.build` (537-553).  The JS recursion has no structural
termination argument (split parts can outnumber their parent), so the
embedding consumes explicit `fuel`; with fuel `0` the call returns the node
unchanged (modelling a recursion that would not finish).  All claims hold for
every fuel value.  An empty input returns immediately; otherwise the node
adopts the first polygon's plane if it has none, splits every input polygon
(both coplanar outputs accumulate into the node's polygon list), and builds
the nonempty front/back lists into a (possibly freshly created) child. -/
def Node.build : ℕ → Node → List Polygon → Node
  | 0, n, _ => n
  | _ + 1, n, [] => n
  | _ + 1, .nil, _ :: _ => .nil
  | fuel + 1, .mk pl ps f b, p :: rest =>
    let plane := pl.getD p.plane
    let acc := (p :: rest).foldl
      (fun acc q =>
        let d := plane.splitPolygon q
        (acc.1 ++ d.coplanarFront ++ d.coplanarBack, acc.2.1 ++ d.front, acc.2.2 ++ d.back))
      (ps, [], [])
    let newFront :=
      match acc.2.1 with
      | [] => f
      | ffs =>
        (match f with
         | .nil => Node.leafNode
         | fn => fn).build fuel ffs
    let newBack :=
      match acc.2.2 with
      | [] => b
      | bbs =>
        (match b with
         | .nil => Node.leafNode
         | bn => bn).build fuel bbs
    Node.mk (some plane) acc.1 newFront newBack

/-- `new Node(polygons)` (485-488): build the polygon list into a fresh empty
node. -/
def Node.ofPolygons (fuel : ℕ) (ps : List Polygon) : Node :=
  Node.leafNode.build fuel ps

/-- `class CSG` (28-92): a flat list of polygons. -/
structure CSG where
  polygons : List Polygon
deriving DecidableEq

/-- `new CSG()` (29-31): the empty solid. -/
def emptyCSG : CSG := ⟨[]⟩

/-- `CSG.prototype.clone` (33-37). -/
def CSG.clone (c : CSG) : CSG := ⟨c.polygons.map Polygon.clone⟩

/-- `CSG.fromPolygons` (88-92). -/
def CSG.fromPolygons (ps : List Polygon) : CSG := ⟨ps⟩

/-- `CSG.prototype.inverse` (82-86): clone, then flip every polygon in
place. -/
def CSG.inverse (c : CSG) : CSG := ⟨(c.clone).polygons.map Polygon.flip⟩

/-- `CSG.prototype.union` (43-53).  Sequential `let`-rebinding renders the
mutation order of the JS statements. -/
def CSG.union (fuel : ℕ) (c other : CSG) : CSG :=
  let a := Node.ofPolygons fuel (c.clone).polygons
  let b := Node.ofPolygons fuel (other.clone).polygons
  let a := a.clipTo b
  let b := b.clipTo a
  let b := b.invert
  let b := b.clipTo a
  let b := b.invert
  let a := a.build fuel b.allPolygons
  CSG.fromPolygons a.allPolygons

/-- `CSG.prototype.subtract` (55-67). -/
def CSG.subtract (fuel : ℕ) (c other : CSG) : CSG :=
  let a := Node.ofPolygons fuel (c.clone).polygons
  let b := Node.ofPolygons fuel (other.clone).polygons
  let a := a.invert
  let a := a.clipTo b
  let b := b.clipTo a
  let b := b.invert
  let b := b.clipTo a
  let b := b.invert
  let a := a.build fuel b.allPolygons
  let a := a.invert
  CSG.fromPolygons a.allPolygons

/-- `CSG.prototype.intersect` (69-80). -/
def CSG.intersect (fuel : ℕ) (c other : CSG) : CSG :=
  let a := Node.ofPolygons fuel (c.clone).polygons
  let b := Node.ofPolygons fuel (other.clone).polygons
  let a := a.invert
  let b := b.clipTo a
  let b := b.invert
  let a := a.clipTo b
  let b := b.clipTo a
  let a := a.build fuel b.allPolygons
  let a := a.invert
  CSG.fromPolygons a.allPolygons

/-- Modelled from the spec (§4.3, claim C1): "`subtract(A, B)`: invert A,
clip A to B, clip B to A, invert B, clip B to A, un-invert B, build A with
B's remaining polygons, invert A back, flatten."  Written step by step in the
spec's order, each step consuming the most recently produced values. -/
def subtractSpecSeq (fuel : ℕ) (c other : CSG) : CSG :=
  let a0 := Node.ofPolygons fuel (c.clone).polygons
  let b0 := Node.ofPolygons fuel (other.clone).polygons
  let a1 := a0.invert
  let a2 := a1.clipTo b0
  let b1 := b0.clipTo a2
  let b2 := b1.invert
  let b3 := b2.clipTo a2
  let b4 := b3.invert
  let a3 := a2.build fuel b4.allPolygons
  let a4 := a3.invert
  CSG.fromPolygons a4.allPolygons

/-- The slice of a renderer `BufferGeometry` consumed by `CSG.fromGeometry`
(94-139): flat position/normal arrays (3 entries per vertex), optional flat
uv (2 per vertex) and color arrays, and an optional explicit index. -/
structure BufferGeometry where
  position : List ℚ
  normal : List ℚ
  uv : Option (List ℚ)
  color : Option (List ℚ)
  index : Option (List ℕ)
deriving DecidableEq

/-- Lines 100-107: use the explicit index if present, else the implicit
sequential index `0 .. (position.length / itemSize) - 1` with
`itemSize = 3`. -/
def BufferGeometry.effIndex (g : BufferGeometry) : List ℕ :=
  match g.index with
  | some ix => ix
  | none => List.range (g.position.length / 3)

/-- Lines 114-135: read vertex `vi` from the attribute arrays, `vp = vi*3`,
`vt = vi*2`.  The color attribute is read at offsets `vt, vt+1, vt+2` —
exactly as the source does (it reuses the uv stride base for the
3-component color). -/
def BufferGeometry.vertexAt (g : BufferGeometry) (vi : ℕ) : Vertex :=
  let vp := vi * 3
  let vt := vi * 2
  ⟨⟨g.position.getD vp 0, g.position.getD (vp + 1) 0, g.position.getD (vp + 2) 0⟩,
   ⟨g.normal.getD vp 0, g.normal.getD (vp + 1) 0, g.normal.getD (vp + 2) 0⟩,
   g.uv.map (fun u => ⟨u.getD vt 0, u.getD (vt + 1) 0⟩),
   g.color.map (fun cl => ⟨cl.getD vt 0, cl.getD (vt + 1) 0, cl.getD (vt + 2) 0⟩)⟩

/-- The triangle loop of `fromGeometry` (112-137):
`for (i = 0; i < index.length; i += 3)` reads `index[i]`, `index[i+1]`,
`index[i+2]` and emits one 3-vertex polygon per iteration.  The condition is
`i < length`, not `i + 2 < length`, so a trailing chunk of 1 or 2 indices
still produces a polygon whose missing indices are out-of-range reads
(`undefined` in JS, default `0` here). -/
def fromGeomLoop (g : BufferGeometry) (sh : Option ℕ) : List ℕ → List Polygon
  | [] => []
  | [v1] => [Polygon.make [g.vertexAt v1, g.vertexAt 0, g.vertexAt 0] sh]
  | [v1, v2] => [Polygon.make [g.vertexAt v1, g.vertexAt v2, g.vertexAt 0] sh]
  | v1 :: v2 :: v3 :: rest =>
    Polygon.make [g.vertexAt v1, g.vertexAt v2, g.vertexAt v3] sh
      :: fromGeomLoop g sh rest

/-- `CSG.fromGeometry` (94-139). -/
def CSG.fromGeometry (g : BufferGeometry) (objectIndex : Option ℕ) : CSG :=
  CSG.fromPolygons (fromGeomLoop g objectIndex g.effIndex)

/-- The fan triangulation of one polygon in `toGeometry` (212-234):
`for (j = 3; j <= pvlen; j++)` emits the corner triple
`(pvs[0], pvs[j-2], pvs[j-1])`, i.e. `vertices.length - 2` triangles. -/
def fanTriangles (p : Polygon) : List (Vertex × Vertex × Vertex) :=
  (List.range (p.vertices.length - 2)).map
    (fun k =>
      (p.vertices.getD 0 default, p.vertices.getD (k + 1) default,
       p.vertices.getD (k + 2) default))

/-- One `nbuf3.write` call (167-171): appends the three components. -/
def writeVec3 (v : Vec3) : List ℚ := [v.x, v.y, v.z]

/-- The position stream written by `CSG.toGeometry` (192, 212-221, 237): for
each polygon, for each fan triangle, the three corner positions in order. -/
def CSG.toGeometryPositions (c : CSG) : List ℚ :=
  c.polygons.foldl
    (fun acc p =>
      (fanTriangles p).foldl
        (fun acc2 t => acc2 ++ writeVec3 t.1.pos ++ writeVec3 t.2.1.pos ++ writeVec3 t.2.2.pos)
        acc)
    []

/-- The normal stream written by `CSG.toGeometry` (193, 222-224, 238). -/
def CSG.toGeometryNormals (c : CSG) : List ℚ :=
  c.polygons.foldl
    (fun acc p =>
      (fanTriangles p).foldl
        (fun acc2 t =>
          acc2 ++ writeVec3 t.1.normal ++ writeVec3 t.2.1.normal ++ writeVec3 t.2.2.normal)
        acc)
    []

/-- The `triCount` computation of `toGeometry` (188-189):
`ps.forEach(p => triCount += p.vertices.length - 2)` on JS numbers. -/
def CSG.toGeometryTriCount (c : CSG) : ℤ :=
  c.polygons.foldl (fun t p => t + ((p.vertices.length : ℤ) - 2)) 0

/-- The nine position entries one fan triangle contributes to the export
position stream (the three `vertices.write(...pos)` calls of 219-221). -/
def triPos (t : Vertex × Vertex × Vertex) : List ℚ :=
  writeVec3 t.1.pos ++ writeVec3 t.2.1.pos ++ writeVec3 t.2.2.pos

/-- The position entries one polygon contributes to the export position
stream. -/
def polyPositions (p : Polygon) : List ℚ := (fanTriangles p).flatMap triPos

/-- A vertex literal: position, normal, no uv, no color. -/
def vtx (x y z nx ny nz : ℚ) : Vertex := ⟨⟨x, y, z⟩, ⟨nx, ny, nz⟩, none, none⟩

/-- Concrete triangle in the plane `z = 0`. -/
def triA : Polygon := Polygon.make [vtx 0 0 0 0 0 1, vtx 1 0 0 0 0 1, vtx 0 1 0 0 0 1] none

/-- Concrete triangle spanning the plane `z = 0` (vertex `z` values
`-1, 1, 1`). -/
def spanTri : Polygon :=
  Polygon.make [vtx 0 0 (-1) 0 0 1, vtx 1 0 1 0 0 1, vtx 0 1 1 0 0 1] none

/-- The plane `z = 0`, oriented along `+z`. -/
def zPlane : Plane := ⟨⟨0, 0, 1⟩, 0⟩

/-- A non-planar quadrilateral: first-corner plane fit is `z = 0`, the fit at
the opposite corner (used after a flip reverses the vertex order) is a
different plane. -/
def quadPoly : Polygon :=
  Polygon.make [vtx 0 0 0 0 0 1, vtx 1 0 0 0 0 1, vtx 1 1 0 0 0 1, vtx (-3) 1 3 0 0 1] none

/-- The one-quadrilateral solid. -/
def quadCSG : CSG := ⟨[quadPoly]⟩

/-- Three colinear points on the x-axis. -/
def colPoly : Polygon :=
  Polygon.make [vtx 0 0 0 0 0 1, vtx 1 0 0 0 0 1, vtx 2 0 0 0 0 1] none

/-- A single-triangle solid. -/
def triCSG : CSG := ⟨[triA]⟩

/-- A two-polygon solid whose second polygon spans the first one's plane, so
building its BSP tree splits it. -/
def twoTriCSG : CSG := ⟨[triA, spanTri]⟩

/-- A node holding the plane `z = 0` and no children (demonstrates the
back-discarding asymmetry of `clipPolygons`). -/
def demoNode : Node := Node.mk (some zPlane) [] Node.nil Node.nil

/-- A one-triangle indexed mesh. -/
def geomTri : BufferGeometry :=
  ⟨[0, 0, 0, 1, 0, 0, 0, 1, 0], [0, 0, 1, 0, 0, 1, 0, 0, 1], none, none, some [0, 1, 2]⟩

/-- An indexed mesh whose index length 4 is not a multiple of 3. -/
def geomFour : BufferGeometry :=
  ⟨[0, 0, 0, 1, 0, 0, 0, 1, 0], [0, 0, 1, 0, 0, 1, 0, 0, 1], none, none, some [0, 1, 2, 0]⟩

theorem Vec3.neg_neg (a : Vec3) : a.neg.neg = a := by
  cases a
  simp [Vec3.neg]

theorem Plane.planeFlipFlip (p : Plane) : p.flip.flip = p := by
  cases p
  simp [Plane.flip, Vec3.neg_neg]

theorem Vertex.vertexFlipFlip (v : Vertex) : v.flip.flip = v := by
  cases v
  simp [Vertex.flip, Vec3.neg_neg]

theorem Vertex.clone_eq (v : Vertex) : v.clone = v := rfl

theorem map_vertexFlip_flip (l : List Vertex) : (l.map Vertex.flip).map Vertex.flip = l := by
  induction l with
  | nil => rfl
  | cons v t ih => simp [Vertex.vertexFlipFlip, ih]

theorem Polygon.polygonFlipFlip (p : Polygon) : p.flip.flip = p := by
  cases p with
  | mk vs sh pl =>
    simp only [Polygon.flip, List.map_reverse, List.reverse_reverse, Plane.planeFlipFlip]
    rw [map_vertexFlip_flip]

theorem map_polyFlip_flip (l : List Polygon) : (l.map Polygon.flip).map Polygon.flip = l := by
  induction l with
  | nil => rfl
  | cons p t ih => simp [Polygon.polygonFlipFlip, ih]

theorem Node.build_nil (fuel : ℕ) (n : Node) : n.build fuel [] = n := by
  cases fuel <;> cases n <;> rfl

theorem Node.ofPolygons_nil (fuel : ℕ) : Node.ofPolygons fuel [] = Node.leafNode :=
  Node.build_nil fuel _

theorem Node.clipPolygons_leaf (ps : List Polygon) : Node.leafNode.clipPolygons ps = ps := rfl

theorem Node.clipPolygons_nil (n : Node) : n.clipPolygons [] = [] := by
  induction n with
  | nil => rfl
  | mk pl ps f b ihf ihb =>
    cases pl with
    | none => rfl
    | some pl => cases f <;> cases b <;> simp_all [Node.clipPolygons]

theorem Node.clipTo_leaf (n : Node) : n.clipTo Node.leafNode = n := by
  induction n with
  | nil => rfl
  | mk pl ps f b ihf ihb => simp [Node.clipTo, Node.clipPolygons_leaf, ihf, ihb]

theorem Node.leaf_clipTo (n : Node) : Node.leafNode.clipTo n = Node.leafNode := by
  simp [Node.clipTo, Node.leafNode, Node.clipPolygons_nil]

theorem Node.invert_invert (n : Node) : n.invert.invert = n := by
  induction n with
  | nil => rfl
  | mk pl ps f b ihf ihb =>
    have hpl : (pl.map Plane.flip).map Plane.flip = pl := by
      cases pl <;> simp [Plane.planeFlipFlip]
    simp only [Node.invert]
    rw [map_polyFlip_flip, hpl, ihf, ihb]

theorem Node.leaf_invert : Node.leafNode.invert = Node.leafNode := rfl

theorem Node.leaf_allPolygons : Node.leafNode.allPolygons = [] := rfl

/-- C1: `CSG.subtract` (55-67) performs exactly the clip/invert sequence of
the spec — invert A, clip A to B, clip B to A, invert B, clip B to A,
un-invert B, build A with B's remaining flattened polygons, invert A back,
and wrap A's flattened polygons — with no step omitted, reordered, or added:
the source operator coincides with the step-by-step spec sequence
`subtractSpecSeq` on all inputs. -/
theorem C1_subtract_sequence (fuel : ℕ) (a b : CSG) :
    CSG.subtract fuel a b = subtractSpecSeq fuel a b := rfl

/-- C6 (code behaviour at the failing input): constructing a Polygon from
the three colinear points (0,0,0), (1,0,0), (2,0,0) is not rejected — the
cross product underlying the plane fit is the zero vector, and the
constructor still returns a Polygon, whose plane is the degenerate
all-zero plane (`NaN` components in JS float arithmetic). -/
theorem C6_colinear_not_rejected :
    ((vtx 1 0 0 0 0 1).pos.sub (vtx 0 0 0 0 0 1).pos).cross
        ((vtx 2 0 0 0 0 1).pos.sub (vtx 0 0 0 0 0 1).pos) = ⟨0, 0, 0⟩ ∧
    colPoly.plane = ⟨⟨0, 0, 0⟩, 0⟩ := by decide

theorem fromGeomLoop_length (g : BufferGeometry) (sh : Option ℕ) :
    ∀ l : List ℕ, (fromGeomLoop g sh l).length = (l.length + 2) / 3
  | [] => rfl
  | [_] => by simp [fromGeomLoop]
  | [_, _] => by simp [fromGeomLoop]
  | v1 :: v2 :: v3 :: rest => by
    have ih := fromGeomLoop_length g sh rest
    simp only [fromGeomLoop, List.length_cons, ih]
    omega

/-- C10 (amended): for every input geometry, `fromGeometry` produces
`ceil(N/3) = (N+2)/3` polygons, where `N` is the index length (or the vertex
count when no index is present) — one polygon per loop iteration
`i = 0, 3, 6, ...` while `i < N`.  When `N` is not a multiple of 3 the last
polygon is a partial one built from out-of-range reads (`undefined`/`NaN`
data in JS); no error is raised. -/
theorem C10_fromGeometry_count (g : BufferGeometry) (tag : Option ℕ) :
    (CSG.fromGeometry g tag).polygons.length = ((g.effIndex).length + 2) / 3 :=
  fromGeomLoop_length g tag g.effIndex

/-- C10 counterexample: on an indexed mesh with index `[0, 1, 2, 0]`
(N = 4), `fromGeometry` emits 2 polygons, not `floor(4/3) = 1` — the
trailing index entry is not ignored; a partial garbage polygon is emitted
for it. -/
theorem C10_counterexample :
    (CSG.fromGeometry geomFour none).polygons.length = 2 ∧
    (CSG.fromGeometry geomFour none).polygons.length ≠ (geomFour.effIndex).length / 3 := by
  decide

/-- C4 (amended): boolean operations with the empty CSG return the
flattening of the left operand's freshly built BSP tree.  For `union` and
`subtract` this is A's polygon set only up to the splitting performed by
`Node.build` (exact identity when no polygon of A spans another polygon's
node plane); `intersect` with the empty CSG returns that same BSP-flattened
polygon set of A — not the empty CSG.  The reason offered by the claim is
accurate: the empty Node never has a plane and every split/clip call on it
passes the other operand through unchanged. -/
theorem C4_empty_operand (fuel : ℕ) (c : CSG) :
    CSG.union fuel c emptyCSG =
        CSG.fromPolygons (Node.ofPolygons fuel (c.clone).polygons).allPolygons ∧
    CSG.subtract fuel c emptyCSG =
        CSG.fromPolygons (Node.ofPolygons fuel (c.clone).polygons).allPolygons ∧
    CSG.intersect fuel c emptyCSG =
        CSG.fromPolygons (Node.ofPolygons fuel (c.clone).polygons).allPolygons := by
  have hempty : Node.ofPolygons fuel (emptyCSG.clone).polygons = Node.leafNode :=
    Node.ofPolygons_nil fuel
  refine ⟨?_, ?_, ?_⟩ <;>
    simp only [CSG.union, CSG.subtract, CSG.intersect, hempty, Node.clipTo_leaf,
      Node.leaf_clipTo, Node.leaf_invert, Node.leaf_allPolygons, Node.build_nil,
      Node.invert_invert]

/-- C4 counterexample: with `A = triCSG` (one triangle), `A.intersect(empty)`
is not the empty CSG; and with `A = twoTriCSG` (two triangles, the second
spanning the first one's plane), `A.union(empty)` does not have A's polygon
count (build splits the spanning triangle), so it is not A's polygon set
under any enumeration order. -/
theorem C4_counterexample :
    CSG.intersect 8 triCSG emptyCSG ≠ emptyCSG ∧
    (CSG.union 8 twoTriCSG emptyCSG).polygons.length ≠ twoTriCSG.polygons.length := by
  decide

theorem Vec3.dot_sub (d u v : Vec3) : d.dot (u.sub v) = d.dot u - d.dot v := by
  cases d; cases u; cases v
  simp only [Vec3.sub, Vec3.dot]
  ring

theorem Vec3.dividedBy_dot (d : Vec3) (s : ℚ) (w : Vec3) :
    (d.dividedBy s).dot w = d.dot w / s := by
  cases d; cases w
  simp only [Vec3.dividedBy, Vec3.dot, div_eq_mul_inv]
  ring

theorem Vec3.neg_dot (a w : Vec3) : a.neg.dot w = -(a.dot w) := by
  cases a; cases w
  simp only [Vec3.neg, Vec3.dot]
  ring

theorem Vec3.dot_self_neg (d : Vec3) : d.neg.dot d.neg = d.dot d := by
  cases d
  simp only [Vec3.neg, Vec3.dot]
  ring

theorem Vec3.unit_neg (d : Vec3) : d.neg.unit = d.unit.neg := by
  have harg : d.neg.dot d.neg = d.dot d := Vec3.dot_self_neg d
  simp only [Vec3.unit, Vec3.length, harg]
  cases d
  simp only [Vec3.neg, Vec3.dividedBy, neg_div]

theorem cross_rev3 (a b c : Vec3) :
    (b.sub c).cross (a.sub c) = ((b.sub a).cross (c.sub a)).neg := by
  cases a; cases b; cases c
  simp only [Vec3.sub, Vec3.cross, Vec3.neg, Vec3.mk.injEq]
  refine ⟨by ring, by ring, by ring⟩

theorem cross_dot_right (a b c : Vec3) :
    ((b.sub a).cross (c.sub a)).dot (c.sub a) = 0 := by
  cases a; cases b; cases c
  simp only [Vec3.sub, Vec3.cross, Vec3.dot]
  ring

/-- Refitting the plane from the reversed vertex order yields exactly the
flipped plane: the cross product at the last corner is the exact negation of
the one at the first corner, and `w` agrees because the fitted normal is
orthogonal to `c - a` (exact arithmetic; holds for every value of the
square-root model, including the degenerate zero cases). -/
theorem Plane.fromPoints_rev (a b c : Vec3) :
    Plane.fromPoints c b a = (Plane.fromPoints a b c).flip := by
  simp only [Plane.fromPoints, Plane.flip]
  rw [cross_rev3, Vec3.unit_neg]
  have h0 : ((b.sub a).cross (c.sub a)).unit.dot (c.sub a) = 0 := by
    simp only [Vec3.unit, Vec3.dividedBy_dot, cross_dot_right, zero_div]
  have hsub := Vec3.dot_sub ((b.sub a).cross (c.sub a)).unit c a
  have hw : ((b.sub a).cross (c.sub a)).unit.dot c =
      ((b.sub a).cross (c.sub a)).unit.dot a := by
    rw [hsub] at h0
    linarith
  rw [Vec3.neg_dot, hw]

theorem Plane.fromPoints_rev_flip (a b c : Vec3) :
    (Plane.fromPoints c b a).flip = Plane.fromPoints a b c := by
  rw [Plane.fromPoints_rev, Plane.planeFlipFlip]

theorem Vertex.flip_pos (v : Vertex) : (v.flip).pos = v.pos := rfl

/-- One round of `clone`-then-`flip`, applied twice, is the identity on a
triangle polygon whose cached plane is the constructor plane of its own
vertices. -/
theorem clone_flip_twice (p : Polygon) (h3 : p.vertices.length = 3)
    (hpl : p.plane = Plane.fromPoints (p.vertices.getD 0 default).pos
      (p.vertices.getD 1 default).pos (p.vertices.getD 2 default).pos) :
    ((p.clone.flip).clone).flip = p := by
  cases p with
  | mk vs sh pl =>
    obtain ⟨v0, v1, v2, hvs⟩ := List.length_eq_three.mp h3
    subst hvs
    simp only at hpl
    simp [Polygon.clone, Polygon.make, Polygon.flip, Vertex.clone_eq,
      Vertex.vertexFlipFlip, Vertex.flip_pos, Plane.fromPoints_rev_flip, hpl]

theorem map_clone_flip_twice (ps : List Polygon)
    (h : ∀ p ∈ ps, p.vertices.length = 3 ∧
      p.plane = Plane.fromPoints (p.vertices.getD 0 default).pos
        (p.vertices.getD 1 default).pos (p.vertices.getD 2 default).pos) :
    (((ps.map Polygon.clone).map Polygon.flip).map Polygon.clone).map Polygon.flip = ps := by
  induction ps with
  | nil => rfl
  | cons p t ih =>
    have hp := h p (by simp)
    simp only [List.map_cons, List.cons.injEq]
    exact ⟨clone_flip_twice p hp.1 hp.2, ih fun q hq => h q (by simp [hq])⟩

/-- C5 (amended): double inversion `A.inverse().inverse()` reproduces `A`'s
polygon set exactly — vertex order (winding), vertex normals and cached
planes included — for every CSG whose polygons are triangles carrying the
constructor-derived plane of their own vertices (which is every polygon the
library itself constructs from a mesh).  For a polygon with more than 3
vertices the claim fails, because each `inverse` clones the polygon through
the constructor, which refits the plane from the first three vertices of the
*reversed* vertex list; see the counterexample. -/
theorem C5_double_inverse (c : CSG)
    (h : ∀ p ∈ c.polygons, p.vertices.length = 3 ∧
      p.plane = Plane.fromPoints (p.vertices.getD 0 default).pos
        (p.vertices.getD 1 default).pos (p.vertices.getD 2 default).pos) :
    c.inverse.inverse = c := by
  cases c with
  | mk ps =>
    simp only [CSG.inverse, CSG.clone, CSG.mk.injEq] at h ⊢
    have := map_clone_flip_twice ps h
    simpa [List.map_map, Function.comp] using this

/-- C5 witness: the theorem applied to the one-triangle solid. -/
theorem C5_witness : triCSG.inverse.inverse = triCSG :=
  C5_double_inverse triCSG (by decide)

/-- C5 counterexample: for the non-planar quadrilateral solid `quadCSG`
(vertices `(0,0,0), (1,0,0), (1,1,0), (-3,1,3)`), double inversion does not
reproduce the polygon set: the cached plane changes from `((0,0,1), 0)` to
`((3/5,0,4/5), 3/5)`, because each `inverse` clones through the constructor,
which refits the plane from the first three vertices of the reversed list. -/
theorem C5_counterexample : quadCSG.inverse.inverse ≠ quadCSG := by decide

theorem vertexType_mem (pl : Plane) (v : Vertex) :
    pl.vertexType v = 0 ∨ pl.vertexType v = 1 ∨ pl.vertexType v = 2 := by
  unfold Plane.vertexType
  dsimp only
  split
  · exact Or.inr (Or.inr rfl)
  split
  · exact Or.inr (Or.inl rfl)
  · exact Or.inl rfl

theorem foldl_lor_eq : ∀ (l : List ℕ) (a : ℕ), a < 4 →
    (∀ x ∈ l, x = 0 ∨ x = 1 ∨ x = 2) →
    l.foldl (fun x y => x ||| y) a =
      (a ||| (if 1 ∈ l then 1 else 0)) ||| (if 2 ∈ l then 2 else 0)
  | [], a, _, _ => by simp
  | x :: t, a, ha, h => by
    have hx := h x (List.mem_cons_self x t)
    have hax : a ||| x < 4 := by
      rcases hx with rfl | rfl | rfl <;> interval_cases a <;> decide
    have ih := foldl_lor_eq t (a ||| x) hax (fun y hy => h y (List.mem_cons_of_mem x hy))
    simp only [List.foldl_cons]
    rw [ih]
    rcases hx with rfl | rfl | rfl <;> interval_cases a <;>
      by_cases h1 : (1 : ℕ) ∈ t <;> by_cases h2 : (2 : ℕ) ∈ t <;>
        simp [List.mem_cons, h1, h2]

/-- C2: for every plane and vertex, `splitPolygon`'s classification by
`t = normal·pos - w` is BACK exactly when `t < -EPSILON`, FRONT exactly when
`t > EPSILON`, and COPLANAR exactly when `|t| ≤ EPSILON` (boundary
inclusive); the polygon-level type is the bitwise OR of all vertex types
(equivalently, bit FRONT=1 set iff some vertex is FRONT, bit BACK=2 set iff
some vertex is BACK); and a polygon whose type is COPLANAR is routed to the
`coplanarFront` output exactly when the splitting plane's normal dotted with
the polygon's own plane normal is positive, else to `coplanarBack`, with the
front/back outputs untouched. -/
theorem C2_classification (pl : Plane) (poly : Polygon) :
    (∀ v : Vertex,
      (pl.vertexType v = BACK ↔ pl.normal.dot v.pos - pl.w < -EPSILON) ∧
      (pl.vertexType v = FRONT ↔ pl.normal.dot v.pos - pl.w > EPSILON) ∧
      (pl.vertexType v = COPLANAR ↔ |pl.normal.dot v.pos - pl.w| ≤ EPSILON)) ∧
    pl.polygonType poly =
      ((if FRONT ∈ poly.vertices.map pl.vertexType then FRONT else COPLANAR) |||
       (if BACK ∈ poly.vertices.map pl.vertexType then BACK else COPLANAR)) ∧
    (pl.polygonType poly = COPLANAR →
      pl.splitPolygon poly =
        if pl.normal.dot poly.plane.normal > 0 then ⟨[poly], [], [], []⟩
        else ⟨[], [poly], [], []⟩) := by
  have hε : (0 : ℚ) < EPSILON := by norm_num [EPSILON]
  refine ⟨?_, ?_, ?_⟩
  · intro v
    unfold Plane.vertexType
    dsimp only
    split_ifs with h1 h2
    · refine ⟨⟨fun _ => h1, fun _ => rfl⟩, ⟨fun hc => absurd hc (by decide), ?_⟩,
        ⟨fun hc => absurd hc (by decide), ?_⟩⟩
      · intro ht; exfalso; linarith
      · intro habs; exfalso; rw [abs_le] at habs; linarith [habs.1]
    · refine ⟨⟨fun hc => absurd hc (by decide), ?_⟩, ⟨fun _ => h2, fun _ => rfl⟩,
        ⟨fun hc => absurd hc (by decide), ?_⟩⟩
      · intro ht; exfalso; linarith
      · intro habs; exfalso; rw [abs_le] at habs; linarith [habs.2]
    · push_neg at h1 h2
      refine ⟨⟨fun hc => absurd hc (by decide), fun ht => absurd ht (by linarith)⟩,
        ⟨fun hc => absurd hc (by decide), fun ht => absurd ht (by linarith)⟩,
        ⟨fun _ => ?_, fun _ => rfl⟩⟩
      rw [abs_le]
      exact ⟨h1, h2⟩
  · have h := foldl_lor_eq (poly.vertices.map pl.vertexType) 0 (by norm_num)
      (fun x hx => by
        obtain ⟨v, _, rfl⟩ := List.mem_map.mp hx
        exact vertexType_mem pl v)
    unfold Plane.polygonType
    rw [h]
    by_cases h1 : (1 : ℕ) ∈ poly.vertices.map pl.vertexType <;>
      by_cases h2 : (2 : ℕ) ∈ poly.vertices.map pl.vertexType <;>
        simp [h1, h2, FRONT, BACK, COPLANAR]
  · intro h0
    unfold Plane.splitPolygon
    simp [h0, COPLANAR]

/-- C2 witness: the coplanar triangle `triA` against `zPlane` (whose normal
agrees with the triangle's) lands in the `coplanarFront` output. -/
theorem C2_witness : zPlane.splitPolygon triA = ⟨[triA], [], [], []⟩ := by
  have h := (C2_classification zPlane triA).2.2 (by decide)
  rw [h]
  decide

theorem splitFold_eq (pl : Plane) :
    ∀ (polys : List Polygon) (acc : List Polygon × List Polygon),
      polys.foldl
        (fun acc p =>
          let d := pl.splitPolygon p
          (acc.1 ++ d.coplanarFront ++ d.front, acc.2 ++ d.coplanarBack ++ d.back))
        acc =
      (acc.1 ++ polys.flatMap (fun p => (pl.splitPolygon p).coplanarFront ++ (pl.splitPolygon p).front),
       acc.2 ++ polys.flatMap (fun p => (pl.splitPolygon p).coplanarBack ++ (pl.splitPolygon p).back))
  | [], acc => by simp
  | p :: t, acc => by
    rw [List.foldl_cons, splitFold_eq pl t]
    dsimp only
    simp [List.append_assoc]

/-- C3: `Node.clipPolygons` on a plane-less node returns the input unchanged;
on a node with plane `pl` it splits each input polygon into a local front
list (coplanar-front merged into front) and a local back list (coplanar-back
merged into back), replaces the front list by the front child's
`clipPolygons` result when a front child exists (passing it through
unchanged otherwise), replaces the back list by the back child's
`clipPolygons` result when a back child exists (discarding the back list
entirely otherwise), and returns front result concatenated with back
result, in that order. -/
theorem C3_clipPolygons (op : Option Plane) (nps : List Polygon) (f b : Node)
    (polys : List Polygon) :
    (op = none → (Node.mk op nps f b).clipPolygons polys = polys) ∧
    (∀ pl, op = some pl →
      (Node.mk op nps f b).clipPolygons polys =
        (match f with
         | .nil => polys.flatMap fun p =>
             (pl.splitPolygon p).coplanarFront ++ (pl.splitPolygon p).front
         | fn => fn.clipPolygons (polys.flatMap fun p =>
             (pl.splitPolygon p).coplanarFront ++ (pl.splitPolygon p).front)) ++
        (match b with
         | .nil => ([] : List Polygon)
         | bn => bn.clipPolygons (polys.flatMap fun p =>
             (pl.splitPolygon p).coplanarBack ++ (pl.splitPolygon p).back))) := by
  constructor
  · rintro rfl
    rfl
  · rintro pl rfl
    conv_lhs => unfold Node.clipPolygons
    simp only [splitFold_eq pl polys]
    cases f <;> cases b <;> simp

/-- C3 witness: a node carrying the plane `z = 0` with no children, applied
to the spanning triangle: the front part survives (passed through, no front
child) and the back part is discarded (no back child). -/
theorem C3_witness :
    demoNode.clipPolygons [spanTri] =
      [Polygon.make (zPlane.spanVerts spanTri).1 spanTri.shared] := by
  have h := (C3_clipPolygons (some zPlane) [] Node.nil Node.nil [spanTri]).2 zPlane rfl
  rw [show demoNode = Node.mk (some zPlane) [] Node.nil Node.nil from rfl, h]
  decide

/-- C7: when `splitPolygon` processes a SPANNING polygon, the coplanar
outputs receive nothing; a new front polygon is emitted exactly when the
accumulated front vertex list has at least 3 vertices, and a new back
polygon exactly when the accumulated back vertex list has at least 3
vertices — shorter sliver lists are silently dropped (the embedding is a
total function: no error path exists in the splitting code). -/
theorem C7_spanning_emission (pl : Plane) (poly : Polygon)
    (h : pl.polygonType poly = SPANNING) :
    pl.splitPolygon poly =
      ⟨[], [],
       if (pl.spanVerts poly).1.length ≥ 3 then
         [Polygon.make (pl.spanVerts poly).1 poly.shared] else [],
       if (pl.spanVerts poly).2.length ≥ 3 then
         [Polygon.make (pl.spanVerts poly).2 poly.shared] else []⟩ := by
  unfold Plane.splitPolygon
  simp [h, SPANNING, COPLANAR, FRONT, BACK]

/-- C7 witness: the theorem applied to the spanning triangle `spanTri` and
`zPlane` (4 accumulated front vertices and 3 accumulated back vertices, so
both a front and a back polygon are emitted). -/
theorem C7_witness :
    zPlane.splitPolygon spanTri =
      ⟨[], [],
       if (zPlane.spanVerts spanTri).1.length ≥ 3 then
         [Polygon.make (zPlane.spanVerts spanTri).1 spanTri.shared] else [],
       if (zPlane.spanVerts spanTri).2.length ≥ 3 then
         [Polygon.make (zPlane.spanVerts spanTri).2 spanTri.shared] else []⟩ :=
  C7_spanning_emission zPlane spanTri (by decide)

theorem foldl_append_eq_flatMap {α : Type} (g : α → List ℚ) :
    ∀ (l : List α) (acc : List ℚ), l.foldl (fun a t => a ++ g t) acc = acc ++ l.flatMap g
  | [], acc => by simp
  | t :: ts, acc => by
    rw [List.foldl_cons, foldl_append_eq_flatMap g ts]
    simp [List.append_assoc]

/-- The export position stream is the concatenation, polygon by polygon, of
each polygon's fan-triangle positions. -/
theorem toGeometryPositions_eq (c : CSG) :
    CSG.toGeometryPositions c = c.polygons.flatMap polyPositions := by
  have hstep : (fun (a : List ℚ) (t : Vertex × Vertex × Vertex) =>
      a ++ writeVec3 t.1.pos ++ writeVec3 t.2.1.pos ++ writeVec3 t.2.2.pos) =
      fun a t => a ++ triPos t := by
    funext a t
    simp [triPos, List.append_assoc]
  have houter : (fun (acc : List ℚ) (p : Polygon) =>
      (fanTriangles p).foldl (fun a t => a ++ triPos t) acc) =
      fun acc p => acc ++ polyPositions p := by
    funext acc p
    rw [foldl_append_eq_flatMap]
    rfl
  unfold CSG.toGeometryPositions
  rw [hstep, houter, foldl_append_eq_flatMap (fun p => polyPositions p) c.polygons []]
  rfl

theorem polyPositions_make3 (A B C : Vertex) (sh : Option ℕ) :
    polyPositions (Polygon.make [A, B, C] sh) =
      writeVec3 A.pos ++ writeVec3 B.pos ++ writeVec3 C.pos := by
  simp [polyPositions, fanTriangles, Polygon.make, triPos, List.range_succ]

theorem loop_positions (g : BufferGeometry) (sh : Option ℕ) :
    ∀ l : List ℕ, l.length % 3 = 0 →
      (fromGeomLoop g sh l).flatMap polyPositions =
        l.flatMap (fun vi => [g.position.getD (vi * 3) 0, g.position.getD (vi * 3 + 1) 0,
          g.position.getD (vi * 3 + 2) 0])
  | [], _ => rfl
  | [_], h => by simp at h
  | [_, _], h => by simp at h
  | v1 :: v2 :: v3 :: rest, h => by
    have h' : rest.length % 3 = 0 := by
      simp only [List.length_cons] at h
      omega
    rw [fromGeomLoop, List.flatMap_cons, loop_positions g sh rest h', polyPositions_make3]
    simp [BufferGeometry.vertexAt, writeVec3, List.append_assoc]

theorem triCount_aux (ps : List Polygon) (h : ∀ p ∈ ps, p.vertices.length = 3) :
    ∀ a : ℤ, ps.foldl (fun t p => t + ((p.vertices.length : ℤ) - 2)) a = a + ps.length := by
  induction ps with
  | nil => intro a; simp
  | cons p t ih =>
    intro a
    have hp := h p (by simp)
    rw [List.foldl_cons, ih (fun q hq => h q (by simp [hq]))]
    rw [hp]
    simp only [List.length_cons]
    push_cast
    ring

theorem loop_vertices_three (g : BufferGeometry) (sh : Option ℕ) :
    ∀ l : List ℕ, ∀ p ∈ fromGeomLoop g sh l, p.vertices.length = 3
  | [] => by simp [fromGeomLoop]
  | [v] => by simp [fromGeomLoop, Polygon.make]
  | [v, w] => by simp [fromGeomLoop, Polygon.make]
  | v :: w :: u :: rest => by
    intro p hp
    rw [fromGeomLoop] at hp
    rcases List.mem_cons.mp hp with rfl | hp'
    · rfl
    · exact loop_vertices_three g sh rest p hp'

/-- C9: for every valid indexed mesh (index present, of length a multiple
of 3), the export of the import is the identity on triangles: the position
stream of `toGeometry (fromGeometry g)` is exactly the de-indexed input
position triples, in index order (fan triangulation of a 3-vertex polygon
emits exactly that one triangle from its first vertex), and the exported
triangle count (the sum over polygons of `vertices.length - 2`) is the input
triangle count `index.length / 3`. -/
theorem C9_roundtrip (g : BufferGeometry) (ix : List ℕ) (tag : Option ℕ)
    (hix : g.index = some ix) (h3 : ix.length % 3 = 0) :
    CSG.toGeometryPositions (CSG.fromGeometry g tag) =
      ix.flatMap (fun vi => [g.position.getD (vi * 3) 0, g.position.getD (vi * 3 + 1) 0,
        g.position.getD (vi * 3 + 2) 0]) ∧
    CSG.toGeometryTriCount (CSG.fromGeometry g tag) = ((ix.length / 3 : ℕ) : ℤ) := by
  have heff : g.effIndex = ix := by simp [BufferGeometry.effIndex, hix]
  have hfrom : CSG.fromGeometry g tag = ⟨fromGeomLoop g tag ix⟩ := by
    simp [CSG.fromGeometry, CSG.fromPolygons, heff]
  constructor
  · rw [hfrom, toGeometryPositions_eq]
    exact loop_positions g tag ix h3
  · rw [hfrom]
    unfold CSG.toGeometryTriCount
    rw [triCount_aux _ (loop_vertices_three g tag ix) 0, fromGeomLoop_length]
    have hd : (ix.length + 2) / 3 = ix.length / 3 := by omega
    rw [hd]
    simp

/-- C9 witness: the theorem applied to the one-triangle indexed mesh
`geomTri`. -/
theorem C9_witness :
    CSG.toGeometryPositions (CSG.fromGeometry geomTri none) =
      [0, 0, 0, 1, 0, 0, 0, 1, 0] ∧
    CSG.toGeometryTriCount (CSG.fromGeometry geomTri none) = 1 := by
  have h := C9_roundtrip geomTri [0, 1, 2] none rfl (by decide)
  refine ⟨?_, ?_⟩
  · rw [h.1]
    decide
  · rw [h.2]
    decide

end CSGJS
